import Mathlib

/-!
Verification of the pi-kinect streaming core.

The definitions below are shallow embeddings of the Python sources:
* `kinect_robust.py` — `RobustKinectStreamer._tone_map_depth` and the
  lock-and-copy frame getters;
* `pi_kinect/pi_kinect/streamer.py` — `KinectStreamer._detect_and_initialize_device`,
  `_try_opencv`, `_capture_frames`, `_add_frame_to_queue`, `get_frame`, and the
  HTTP handlers `_serve_stream`, `_serve_depth_stream`, `_serve_frame`,
  `_serve_status`.

Machine reals of the source (numpy float arithmetic) are modelled with `ℚ`;
depth samples and 8-bit pixels are `ℕ`.
-/

/-! ## Depth tone mapper (`kinect_robust.py`, `_tone_map_depth`) -/

/-- `valid_mask = (depth_frame > 0) & (depth_frame < 2048)`, per sample. -/
def validDepth (d : ℕ) : Bool :=
  decide (0 < d) && decide (d < 2048)

/-- `depth_frame[valid_mask]`: the row-major list of valid samples. -/
def validSamples (f : List (List ℕ)) : List ℕ :=
  (f.flatten).filter validDepth

/-- `np.zeros_like(depth_frame, dtype=np.uint8)`: an all-zero image of the
same shape as `f`. -/
def zeroImage (f : List (List ℕ)) : List (List ℕ) :=
  f.map (fun row => row.map (fun _ => 0))

/-- The virtual index `(n - 1) * q / 100` used by `np.percentile` with the
default linear interpolation. -/
def pctIndex (n : ℕ) (q : ℚ) : ℚ :=
  ((n - 1 : ℕ) : ℚ) * q / 100

/-- `np.percentile` (linear interpolation) on an already sorted list:
`a[i] + (h - i) * (a[j] - a[i])` with `h = (n-1)q/100`, `i = ⌊h⌋`,
`j = min (i+1) (n-1)`. -/
def percentileSorted (s : List ℕ) (q : ℚ) : ℚ :=
  if s.length = 0 then 0
  else
    let h : ℚ := pctIndex s.length q
    let i : ℕ := (⌊h⌋).toNat
    let j : ℕ := min (i + 1) (s.length - 1)
    let a : ℚ := ((s.getD i 0 : ℕ) : ℚ)
    let b : ℚ := ((s.getD j 0 : ℕ) : ℚ)
    a + (h - (i : ℚ)) * (b - a)

/-- `np.percentile(valid_depth, q)`: sort, then interpolate. -/
def percentile (l : List ℕ) (q : ℚ) : ℚ :=
  percentileSorted (List.insertionSort (fun a b : ℕ => a ≤ b) l) q

/-- One sample through
`np.clip((d - min_depth) / (max_depth - min_depth), 0, 1) * 255` followed by
`.astype(np.uint8)` (truncation; the clipped value is nonnegative, so this
is the floor). -/
def toneMapValue (minDepth maxDepth : ℚ) (d : ℕ) : ℕ :=
  (⌊(max 0 (min 1 (((d : ℚ) - minDepth) / (maxDepth - minDepth)))) * 255⌋).toNat

/-- `RobustKinectStreamer._tone_map_depth`: all-zero image when no sample is
valid; otherwise 1st/99th percentiles of the valid samples and, when
`max_depth > min_depth`, the clamped linear map applied to every sample;
all-zero image in the degenerate case. -/
def toneMapDepth (f : List (List ℕ)) : List (List ℕ) :=
  if validSamples f = [] then zeroImage f
  else if percentile (validSamples f) 1 < percentile (validSamples f) 99 then
    f.map (fun row => row.map
      (toneMapValue (percentile (validSamples f) 1) (percentile (validSamples f) 99)))
  else zeroImage f

/-! ## Frame buffer copy-on-read (`get_frame` / `get_video_frame`)

The Python arrays live on a heap of numbered cells; `self.current_frame`
holds a cell address. `get_frame` returns `self.current_frame.copy()`,
modelled as allocating a fresh cell holding the same bytes. A later publish
(`self.current_frame = frame`) allocates a new cell and repoints the slot; a
later in-place mutation writes the cell the slot currently points to. -/

/-- Pixel bytes of one frame. -/
def FrameBytes : Type := List ℕ

instance : DecidableEq FrameBytes := by
  unfold FrameBytes
  infer_instance

/-- A heap of array cells: contents per address, plus the next fresh address. -/
structure ArrayHeap where
  store : ℕ → FrameBytes
  next : ℕ

/-- Overwrite the cell at address `a` in place. -/
def writeHeap (h : ArrayHeap) (a : ℕ) (b : FrameBytes) : ArrayHeap :=
  ⟨fun x => if x = a then b else h.store x, h.next⟩

/-- Allocate a fresh cell holding `b`; returns the heap and the new address. -/
def allocHeap (h : ArrayHeap) (b : FrameBytes) : ArrayHeap × ℕ :=
  (⟨fun x => if x = h.next then b else h.store x, h.next + 1⟩, h.next)

/-- The streamer's frame slot: `self.current_frame` is an optional address. -/
structure FrameSlot where
  heap : ArrayHeap
  current : Option ℕ

/-- `self.current_frame = frame` with a freshly produced array. -/
def publishFrame (s : FrameSlot) (b : FrameBytes) : FrameSlot :=
  ⟨(allocHeap s.heap b).1, some (allocHeap s.heap b).2⟩

/-- An in-place write into the array the current slot points to. -/
def mutateCurrentFrame (s : FrameSlot) (b : FrameBytes) : FrameSlot :=
  match s.current with
  | none => s
  | some a => ⟨writeHeap s.heap a b, s.current⟩

/-- `get_frame`: `self.current_frame.copy() if self.current_frame is not None
else None` — the copy is a fresh cell with the same bytes. -/
def getFrameCopy (s : FrameSlot) : FrameSlot × Option ℕ :=
  match s.current with
  | none => (s, none)
  | some a => (⟨(allocHeap s.heap (s.heap.store a)).1, s.current⟩,
               some (allocHeap s.heap (s.heap.store a)).2)

/-- Operations the producer may perform after a reader took its copy. -/
inductive SlotOp where
  | publish (b : FrameBytes)
  | mutateCurrent (b : FrameBytes)
deriving DecidableEq

def applySlotOp (s : FrameSlot) : SlotOp → FrameSlot
  | SlotOp.publish b => publishFrame s b
  | SlotOp.mutateCurrent b => mutateCurrentFrame s b

def applySlotOps (s : FrameSlot) (ops : List SlotOp) : FrameSlot :=
  ops.foldl applySlotOp s

/-! ## Streamer model (`pi_kinect/pi_kinect/streamer.py`) -/

/-- The string-tagged capture method of `KinectStreamer.kinect_method`. -/
inductive KMethod where
  | freenect
  | freenectSystem
  | opencv
deriving DecidableEq

/-- The configuration fields the streamer core reads
(`config.camera.{index,width,height,fps}`, `config.kinect.{enabled,
depth_enabled,fallback_to_opencv}`). -/
structure Config where
  cameraIndex : ℕ
  width : ℕ
  height : ℕ
  fps : ℕ
  kinectEnabled : Bool
  depthEnabled : Bool
  fallbackToOpencv : Bool
deriving DecidableEq

/-- The probe environment: whether the `freenect` import succeeded
(`FREENECT_AVAILABLE`) and whether each `_try_*` probe would return True. -/
structure ProbeEnv where
  freenectAvailable : Bool
  freenectPythonOk : Bool
  freenectSystemOk : Bool
  opencvOk : Bool
deriving DecidableEq

/-- Outcome of `_detect_and_initialize_device`: the fields it assigns, plus
the ordered list of probe attempts actually made. -/
structure DetectResult where
  kinect_method : Option KMethod
  kinect_available : Bool
  error_message : Option String
  attempts : List KMethod
deriving DecidableEq

/-- `KinectStreamer._detect_and_initialize_device`: Method 1 is attempted iff
`FREENECT_AVAILABLE and config.kinect.enabled`; Method 2 iff
`config.kinect.enabled`; Method 3 iff `config.kinect.fallback_to_opencv`;
each early-returns on success, and if none succeeds the streamer records
`kinect_available = False` and the error message. -/
def detectAndInitializeDevice (cfg : Config) (env : ProbeEnv) : DetectResult :=
  let a1 : List KMethod :=
    if env.freenectAvailable && cfg.kinectEnabled then [KMethod.freenect] else []
  if env.freenectAvailable && cfg.kinectEnabled && env.freenectPythonOk then
    ⟨some KMethod.freenect, true, none, a1⟩
  else
    let a2 : List KMethod :=
      a1 ++ (if cfg.kinectEnabled then [KMethod.freenectSystem] else [])
    if cfg.kinectEnabled && env.freenectSystemOk then
      ⟨some KMethod.freenectSystem, true, none, a2⟩
    else
      let a3 : List KMethod :=
        a2 ++ (if cfg.fallbackToOpencv then [KMethod.opencv] else [])
      if cfg.fallbackToOpencv && env.opencvOk then
        ⟨some KMethod.opencv, true, none, a3⟩
      else
        ⟨none, false, some ("No camera device detected"), a3⟩

/-- A captured or synthesized color frame. A status frame records the data
`_create_status_frame` draws on it; a camera frame is opaque. -/
inductive CFrame where
  | statusImage (height width frameCount : ℕ) (available : Bool)
      (method : Option KMethod) (err : Option String)
  | cameraImage (id : ℕ)
deriving DecidableEq

/-- What the backends would deliver during one capture cycle. -/
structure CaptureEnv where
  freenectVideo : Option CFrame
  freenectDepth : Option (List (List ℕ))
  opencvFrame : Option CFrame
deriving DecidableEq

/-- The mutable state of `KinectStreamer` that the capture loop and the HTTP
handlers share. -/
structure StreamerState where
  running : Bool
  kinect_available : Bool
  kinect_method : Option KMethod
  error_message : Option String
  frame_count : ℕ
  frame_queue : List CFrame
  depth_queue : List (List (List ℕ))
  current_frame : Option CFrame
  current_depth : Option (List (List ℕ))
deriving DecidableEq

/-- The state right after `__init__` ran `_detect_and_initialize_device`. -/
def initState (cfg : Config) (env : ProbeEnv) : StreamerState :=
  ⟨false, (detectAndInitializeDevice cfg env).kinect_available,
   (detectAndInitializeDevice cfg env).kinect_method,
   (detectAndInitializeDevice cfg env).error_message,
   0, [], [], none, none⟩

/-- `_create_status_frame`: a `(height, width)` image showing availability,
method, the current frame counter and the error message. -/
def createStatusFrame (cfg : Config) (s : StreamerState) : CFrame :=
  CFrame.statusImage cfg.height cfg.width s.frame_count s.kinect_available
    s.kinect_method s.error_message

/-- `_add_frame_to_queue` (queue maxsize 10, drop-oldest when full):
either way the frame becomes `current_frame` and `frame_count` increments. -/
def addFrameToQueue (s : StreamerState) (f : CFrame) : StreamerState :=
  if s.frame_queue.length < 10 then
    { s with frame_queue := s.frame_queue ++ [f], current_frame := some f,
             frame_count := s.frame_count + 1 }
  else
    { s with frame_queue := s.frame_queue.drop 1 ++ [f], current_frame := some f,
             frame_count := s.frame_count + 1 }

/-- `_add_depth_to_queue` (same discipline, but no frame-count increment). -/
def addDepthToQueue (s : StreamerState) (d : List (List ℕ)) : StreamerState :=
  if s.depth_queue.length < 10 then
    { s with depth_queue := s.depth_queue ++ [d], current_depth := some d }
  else
    { s with depth_queue := s.depth_queue.drop 1 ++ [d], current_depth := some d }

/-- `_capture_freenect_frames`: publish the RGB frame if one arrived, then
the depth frame if depth is enabled and one arrived. -/
def captureFreenect (cfg : Config) (env : CaptureEnv) (s : StreamerState) : StreamerState :=
  let s1 := match env.freenectVideo with
    | some f => addFrameToQueue s f
    | none => s
  if cfg.depthEnabled then
    match env.freenectDepth with
    | some d => addDepthToQueue s1 d
    | none => s1
  else s1

/-- One iteration of the `_capture_frames` loop body: dispatch on
`kinect_method`; with no method, synthesize and publish a status frame. -/
def captureCycle (cfg : Config) (env : CaptureEnv) (s : StreamerState) : StreamerState :=
  match s.kinect_method with
  | some KMethod.freenect => captureFreenect cfg env s
  | some KMethod.freenectSystem => captureFreenect cfg env s
  | some KMethod.opencv =>
    match env.opencvFrame with
    | some f => addFrameToQueue s f
    | none => s
  | none => addFrameToQueue s (createStatusFrame cfg s)

/-- The JSON body of `/status` (time-derived fields omitted). -/
structure StatusJson where
  running : Bool
  frame_count : ℕ
  kinect_available : Bool
  kinect_method : Option KMethod
  error_message : Option String
  camera_available : Bool
  frame_available : Bool
deriving DecidableEq

/-- `_serve_status`: `camera_available`/`frame_available` are
`frame is not None and kinect_available`. -/
def serveStatusEndpoint (s : StreamerState) : StatusJson :=
  ⟨s.running, s.frame_count, s.kinect_available, s.kinect_method, s.error_message,
   s.current_frame.isSome && s.kinect_available,
   s.current_frame.isSome && s.kinect_available⟩

/-- The media body of a stream endpoint response. -/
inductive ImagePayload where
  | encodedFrame (f : CFrame)
  | placeholderDepth (height width : ℕ)
  | depthColormap (d : List (List ℕ))
deriving DecidableEq

/-- An HTTP response of the frame-serving endpoints. -/
inductive HttpResponse where
  | httpError (code : ℕ) (msg : String)
  | jpegImage (img : ImagePayload)
deriving DecidableEq

/-- `_serve_stream`: `send_error(503)` when no frame exists, else the JPEG of
the single frame snapshot taken by `get_frame`. -/
def serveStreamEndpoint (cfg : Config) (s : StreamerState) : HttpResponse :=
  match s.current_frame with
  | none => HttpResponse.httpError 503 ("Stream not available")
  | some f => HttpResponse.jpegImage (ImagePayload.encodedFrame f)

/-- `_serve_depth_stream`: a synthesized placeholder of the configured
`(height, width)` when no depth frame exists, else the colorized depth. -/
def serveDepthEndpoint (cfg : Config) (s : StreamerState) : HttpResponse :=
  match s.current_depth with
  | none => HttpResponse.jpegImage (ImagePayload.placeholderDepth cfg.height cfg.width)
  | some d => HttpResponse.jpegImage (ImagePayload.depthColormap d)

/-- The availability booleans of the `/frame` JSON body. -/
structure FrameJson where
  rgb_available : Bool
  depth_available : Bool
deriving DecidableEq

/-- `_serve_frame`: absence is reported as boolean fields. -/
def serveFrameEndpoint (s : StreamerState) : FrameJson :=
  ⟨s.current_frame.isSome, s.current_depth.isSome⟩

/-- Concrete configuration: all capture kinds enabled, 640x480 at 30 fps. -/
def cfg640 : Config := ⟨0, 640, 480, 30, true, true, true⟩

/-- Probe environment where the binding is importable but every probe fails. -/
def probeAllFail : ProbeEnv := ⟨true, false, false, false⟩

/-- Probe environment of the spec's fallback scenario: only OpenCV succeeds. -/
def probeOnlyOpencv : ProbeEnv := ⟨true, false, false, true⟩

/-- Capture environment where no backend delivers anything. -/
def cenvNone : CaptureEnv := ⟨none, none, none⟩

/-! ## Generic-camera probe (`KinectStreamer._try_opencv`) -/

/-- Camera hardware behavior: whether `cv2.VideoCapture(i).isOpened()` holds
and whether `cap.read()` yields `ret and test_frame is not None`. -/
structure CameraEnv where
  opens : ℕ → Bool
  readOk : ℕ → Bool

/-- Observable actions `_try_opencv` performs on camera devices. -/
inductive CamEvent where
  | openDev (i : ℕ)
  | releaseDev (i : ℕ)
  | setProps (i w h fp : ℕ)
deriving DecidableEq

/-- `[self.config.camera.index, 1, 2, 3, 4, 5]` — the loop's index list. -/
def candidateIndices (idx : ℕ) : List ℕ := [idx, 1, 2, 3, 4, 5]

/-- The body of `_try_opencv`'s loop over a list of indices: construct the
capture, keep the first index that opens and yields a decodable frame
(setting width/height/fps on it), release and move on otherwise. Returns the
selected index and the device-action trace. -/
def tryOpencvAux (env : CameraEnv) (cfg : Config) : List ℕ → Option ℕ × List CamEvent
  | [] => (none, [])
  | i :: rest =>
    if env.opens i && env.readOk i then
      (some i, [CamEvent.openDev i, CamEvent.setProps i cfg.width cfg.height cfg.fps])
    else
      ((tryOpencvAux env cfg rest).1,
       CamEvent.openDev i :: CamEvent.releaseDev i :: (tryOpencvAux env cfg rest).2)

/-- `_try_opencv`: run the loop over the candidate indices. -/
def tryOpencv (env : CameraEnv) (cfg : Config) : Option ℕ × List CamEvent :=
  tryOpencvAux env cfg (candidateIndices cfg.cameraIndex)

/-- Canonical shape of the trace: an open/release pair for every index tried
and rejected, then, if some index opens and reads, an open followed by the
property configuration on that index. -/
def opencvTrace (env : CameraEnv) (cfg : Config) (l : List ℕ) : List CamEvent :=
  ((l.takeWhile (fun i => !(env.opens i && env.readOk i))).map
    (fun i => [CamEvent.openDev i, CamEvent.releaseDev i])).flatten
  ++ (match l.find? (fun i => env.opens i && env.readOk i) with
      | some i => [CamEvent.openDev i, CamEvent.setProps i cfg.width cfg.height cfg.fps]
      | none => [])

/-- Environment in which only camera index 5 opens and yields a frame. -/
def envOnlyIndex5 : CameraEnv := ⟨fun i => decide (i = 5), fun _ => true⟩


/-! ## Lemmas and claim theorems -/

/-! ### Helper lemmas about the tone mapper -/

lemma zeroImage_length (f : List (List ℕ)) : (zeroImage f).length = f.length := by
  simp [zeroImage]

lemma zeroImage_rowLengths (f : List (List ℕ)) :
    (zeroImage f).map List.length = f.map List.length := by
  simp [zeroImage]

lemma zeroImage_allZero (f : List (List ℕ)) :
    ∀ row ∈ zeroImage f, ∀ v ∈ row, v = 0 := by
  intro row hrow v hv
  simp only [zeroImage, List.mem_map] at hrow
  obtain ⟨r, _, rfl⟩ := hrow
  simp only [List.mem_map] at hv
  obtain ⟨x, _, rfl⟩ := hv
  rfl

lemma percentileSorted_eq (s : List ℕ) (hne : ¬ s.length = 0) (q : ℚ) :
    percentileSorted s q =
      ((s.getD (⌊pctIndex s.length q⌋).toNat 0 : ℕ) : ℚ)
      + (pctIndex s.length q - (((⌊pctIndex s.length q⌋).toNat : ℕ) : ℚ))
        * (((s.getD (min ((⌊pctIndex s.length q⌋).toNat + 1) (s.length - 1)) 0 : ℕ) : ℚ)
           - ((s.getD (⌊pctIndex s.length q⌋).toNat 0 : ℕ) : ℚ)) := by
  rw [percentileSorted, if_neg hne]

lemma percentileSorted_between (s : List ℕ) (q : ℚ) (lo hi : ℕ)
    (hne : s ≠ []) (hq0 : 0 ≤ q) (hq1 : q ≤ 100)
    (hlo : ∀ x ∈ s, lo ≤ x) (hhi : ∀ x ∈ s, x ≤ hi) :
    (lo : ℚ) ≤ percentileSorted s q ∧ percentileSorted s q ≤ (hi : ℚ) := by
  have hlen : 0 < s.length := List.length_pos.mpr hne
  have hlen0 : ¬ s.length = 0 := by omega
  rw [percentileSorted_eq s hlen0 q]
  have hh0 : 0 ≤ pctIndex s.length q := by
    unfold pctIndex
    exact div_nonneg (mul_nonneg (Nat.cast_nonneg _) hq0) (by norm_num)
  have hhle : pctIndex s.length q ≤ ((s.length - 1 : ℕ) : ℚ) := by
    unfold pctIndex
    rw [div_le_iff₀ (by norm_num : (0:ℚ) < 100)]
    exact mul_le_mul_of_nonneg_left hq1 (Nat.cast_nonneg _)
  have hfloor0 : 0 ≤ ⌊pctIndex s.length q⌋ := Int.floor_nonneg.mpr hh0
  have hicast : (((⌊pctIndex s.length q⌋).toNat : ℕ) : ℚ) = ((⌊pctIndex s.length q⌋ : ℤ) : ℚ) := by
    exact_mod_cast congrArg (fun z : ℤ => (z : ℚ)) (Int.toNat_of_nonneg hfloor0)
  have hile : (⌊pctIndex s.length q⌋).toNat ≤ s.length - 1 := by
    have h1 : ⌊pctIndex s.length q⌋ ≤ ⌊((s.length - 1 : ℕ) : ℚ)⌋ := Int.floor_mono hhle
    rw [Int.floor_natCast] at h1
    exact Int.toNat_le.mpr h1
  have hi_lt : (⌊pctIndex s.length q⌋).toNat < s.length := by omega
  have hj_lt : min ((⌊pctIndex s.length q⌋).toNat + 1) (s.length - 1) < s.length := by omega
  have hγ0 : 0 ≤ pctIndex s.length q - (((⌊pctIndex s.length q⌋).toNat : ℕ) : ℚ) := by
    rw [hicast]
    exact sub_nonneg.mpr (Int.floor_le _)
  have hγ1 : pctIndex s.length q - (((⌊pctIndex s.length q⌋).toNat : ℕ) : ℚ) ≤ 1 := by
    rw [hicast]
    have := Int.lt_floor_add_one (pctIndex s.length q)
    push_cast at this
    linarith
  have ha_mem : s.getD (⌊pctIndex s.length q⌋).toNat 0 ∈ s := by
    rw [List.getD_eq_getElem s 0 hi_lt]
    exact List.getElem_mem _
  have hb_mem : s.getD (min ((⌊pctIndex s.length q⌋).toNat + 1) (s.length - 1)) 0 ∈ s := by
    rw [List.getD_eq_getElem s 0 hj_lt]
    exact List.getElem_mem _
  have hla : (lo : ℚ) ≤ ((s.getD (⌊pctIndex s.length q⌋).toNat 0 : ℕ) : ℚ) := by
    exact_mod_cast hlo _ ha_mem
  have hlb : (lo : ℚ) ≤
      ((s.getD (min ((⌊pctIndex s.length q⌋).toNat + 1) (s.length - 1)) 0 : ℕ) : ℚ) := by
    exact_mod_cast hlo _ hb_mem
  have hha : ((s.getD (⌊pctIndex s.length q⌋).toNat 0 : ℕ) : ℚ) ≤ (hi : ℚ) := by
    exact_mod_cast hhi _ ha_mem
  have hhb : ((s.getD (min ((⌊pctIndex s.length q⌋).toNat + 1) (s.length - 1)) 0 : ℕ) : ℚ)
      ≤ (hi : ℚ) := by
    exact_mod_cast hhi _ hb_mem
  constructor
  · nlinarith [mul_nonneg hγ0 (sub_nonneg.mpr hlb)]
  · nlinarith [mul_nonneg hγ0 (sub_nonneg.mpr hhb)]

lemma percentile_between (l : List ℕ) (q : ℚ) (lo hi : ℕ)
    (hne : l ≠ []) (hq0 : 0 ≤ q) (hq1 : q ≤ 100)
    (hlo : ∀ x ∈ l, lo ≤ x) (hhi : ∀ x ∈ l, x ≤ hi) :
    (lo : ℚ) ≤ percentile l q ∧ percentile l q ≤ (hi : ℚ) := by
  unfold percentile
  have hperm := List.perm_insertionSort (fun a b : ℕ => a ≤ b) l
  refine percentileSorted_between _ q lo hi ?_ hq0 hq1 ?_ ?_
  · intro hnil
    exact hne (List.Perm.nil_eq (hnil ▸ hperm)).symm
  · intro x hx
    exact hlo x (hperm.mem_iff.mp hx)
  · intro x hx
    exact hhi x (hperm.mem_iff.mp hx)

lemma percentile_const (l : List ℕ) (c : ℕ) (q : ℚ)
    (hne : l ≠ []) (hq0 : 0 ≤ q) (hq1 : q ≤ 100)
    (hc : ∀ x ∈ l, x = c) : percentile l q = (c : ℚ) := by
  have h := percentile_between l q c c hne hq0 hq1
    (fun x hx => le_of_eq (hc x hx).symm) (fun x hx => le_of_eq (hc x hx))
  exact le_antisymm h.2 h.1

lemma toneMapValue_mono (minDepth maxDepth : ℚ) (hlt : minDepth < maxDepth)
    {a b : ℕ} (hab : a ≤ b) :
    toneMapValue minDepth maxDepth a ≤ toneMapValue minDepth maxDepth b := by
  unfold toneMapValue
  have hΔ : (0 : ℚ) < maxDepth - minDepth := sub_pos.mpr hlt
  have h1 : ((a : ℚ) - minDepth) / (maxDepth - minDepth)
      ≤ ((b : ℚ) - minDepth) / (maxDepth - minDepth) := by
    have hc : (a : ℚ) ≤ (b : ℚ) := by exact_mod_cast hab
    gcongr
  have h2 := min_le_min (le_refl (1 : ℚ)) h1
  have h3 := max_le_max (le_refl (0 : ℚ)) h2
  have h4 := mul_le_mul_of_nonneg_right h3 (by norm_num : (0:ℚ) ≤ 255)
  exact Int.toNat_le_toNat (Int.floor_mono h4)

lemma toneMapValue_eq_zero (minDepth maxDepth : ℚ) (hlt : minDepth < maxDepth)
    (d : ℕ) (hd : (d : ℚ) ≤ minDepth) :
    toneMapValue minDepth maxDepth d = 0 := by
  unfold toneMapValue
  have hΔ : (0 : ℚ) < maxDepth - minDepth := sub_pos.mpr hlt
  have hr : ((d : ℚ) - minDepth) / (maxDepth - minDepth) ≤ 0 := by
    rw [div_le_iff₀ hΔ]
    linarith
  have hmin : min 1 (((d : ℚ) - minDepth) / (maxDepth - minDepth))
      = ((d : ℚ) - minDepth) / (maxDepth - minDepth) :=
    min_eq_right (by linarith)
  rw [hmin, max_eq_left hr]
  norm_num

lemma toneMapValue_eq_255 (minDepth maxDepth : ℚ) (hlt : minDepth < maxDepth)
    (d : ℕ) (hd : maxDepth ≤ (d : ℚ)) :
    toneMapValue minDepth maxDepth d = 255 := by
  unfold toneMapValue
  have hΔ : (0 : ℚ) < maxDepth - minDepth := sub_pos.mpr hlt
  have hr : 1 ≤ ((d : ℚ) - minDepth) / (maxDepth - minDepth) := by
    rw [le_div_iff₀ hΔ]
    linarith
  rw [min_eq_left hr, max_eq_right (by norm_num : (0:ℚ) ≤ 1)]
  norm_num
  decide

lemma floor_one_hundredth : ⌊(1 : ℚ) / 100⌋ = 0 := by
  rw [Int.floor_eq_zero_iff]
  rw [Set.mem_Ico]
  norm_num

lemma floor_ninetynine_hundredths : ⌊(99 : ℚ) / 100⌋ = 0 := by
  rw [Int.floor_eq_zero_iff]
  rw [Set.mem_Ico]
  norm_num

lemma percentile_pair_one : percentile [100, 200] 1 = 101 := by
  have hs : List.insertionSort (fun a b : ℕ => a ≤ b) [100, 200] = [100, 200] := by decide
  unfold percentile
  rw [hs, percentileSorted_eq _ (by decide) 1]
  have hp : pctIndex ([100, 200] : List ℕ).length 1 = 1 / 100 := by
    unfold pctIndex
    norm_num
  rw [hp, floor_one_hundredth]
  norm_num [List.getD]

lemma percentile_pair_ninetynine : percentile [100, 200] 99 = 199 := by
  have hs : List.insertionSort (fun a b : ℕ => a ≤ b) [100, 200] = [100, 200] := by decide
  unfold percentile
  rw [hs, percentileSorted_eq _ (by decide) 99]
  have hp : pctIndex ([100, 200] : List ℕ).length 99 = 99 / 100 := by
    unfold pctIndex
    norm_num
  rw [hp, floor_ninetynine_hundredths]
  norm_num [List.getD]

/-! ### Claim theorems for the tone mapper -/

/-- C3: a depth frame in which every sample is invalid (`0` or `≥ 2048`) is
tone-mapped to the all-zero 8-bit image of the same dimensions. -/
theorem toneMapDepth_allInvalid (f : List (List ℕ))
    (h : ∀ d ∈ f.flatten, validDepth d = false) :
    toneMapDepth f = zeroImage f ∧
    (toneMapDepth f).length = f.length ∧
    (toneMapDepth f).map List.length = f.map List.length ∧
    (∀ row ∈ toneMapDepth f, ∀ v ∈ row, v = 0) := by
  have hv : validSamples f = [] := by
    apply List.filter_eq_nil_iff.mpr
    intro a ha
    simp [h a ha]
  have hz : toneMapDepth f = zeroImage f := by
    rw [toneMapDepth, if_pos hv]
  exact ⟨hz, by rw [hz]; exact zeroImage_length f,
         by rw [hz]; exact zeroImage_rowLengths f,
         by rw [hz]; exact zeroImage_allZero f⟩

/-- Witness for C3 at the concrete all-invalid frame `[[0, 2048], [4000, 0]]`. -/
theorem toneMapDepth_allInvalid_witness :
    toneMapDepth [[0, 2048], [4000, 0]] = zeroImage [[0, 2048], [4000, 0]] :=
  (toneMapDepth_allInvalid [[0, 2048], [4000, 0]] (by decide)).1

/-- C4: a depth frame with at least one valid sample whose valid samples are
all equal makes the 1st and 99th percentile coincide; the tone mapper takes
the guarded branch (no division by zero is evaluated) and returns the
all-zero image of the input's dimensions. -/
theorem toneMapDepth_degenerate (f : List (List ℕ)) (c : ℕ)
    (hne : validSamples f ≠ []) (hc : ∀ d ∈ validSamples f, d = c) :
    percentile (validSamples f) 1 = percentile (validSamples f) 99 ∧
    toneMapDepth f = zeroImage f ∧
    (toneMapDepth f).map List.length = f.map List.length ∧
    (∀ row ∈ toneMapDepth f, ∀ v ∈ row, v = 0) := by
  have h1 : percentile (validSamples f) 1 = (c : ℚ) :=
    percentile_const _ c 1 hne (by norm_num) (by norm_num) hc
  have h99 : percentile (validSamples f) 99 = (c : ℚ) :=
    percentile_const _ c 99 hne (by norm_num) (by norm_num) hc
  have hz : toneMapDepth f = zeroImage f := by
    rw [toneMapDepth, if_neg hne, if_neg]
    rw [h1, h99]
    exact lt_irrefl _
  exact ⟨by rw [h1, h99], hz,
         by rw [hz]; exact zeroImage_rowLengths f,
         by rw [hz]; exact zeroImage_allZero f⟩

/-- Witness for C4 at `[[0, 5], [5]]`, whose valid samples are `[5, 5]`. -/
theorem toneMapDepth_degenerate_witness :
    percentile (validSamples [[0, 5], [5]]) 1 = percentile (validSamples [[0, 5], [5]]) 99 ∧
    toneMapDepth [[0, 5], [5]] = zeroImage [[0, 5], [5]] :=
  ⟨(toneMapDepth_degenerate [[0, 5], [5]] 5 (by decide) (by decide)).1,
   (toneMapDepth_degenerate [[0, 5], [5]] 5 (by decide) (by decide)).2.1⟩

/-- C5: when the 1st percentile of the valid samples is strictly below the
99th, the tone map is monotone in the sample value, sends every value at or
below the 1st percentile to 0 and every value at or above the 99th
percentile to 255, and `toneMapDepth` applies exactly this map to every
sample of the frame. -/
theorem toneMapDepth_monotone (f : List (List ℕ))
    (hne : validSamples f ≠ [])
    (hlt : percentile (validSamples f) 1 < percentile (validSamples f) 99) :
    (∀ a b : ℕ, a ≤ b →
      toneMapValue (percentile (validSamples f) 1) (percentile (validSamples f) 99) a
        ≤ toneMapValue (percentile (validSamples f) 1) (percentile (validSamples f) 99) b) ∧
    (∀ d : ℕ, (d : ℚ) ≤ percentile (validSamples f) 1 →
      toneMapValue (percentile (validSamples f) 1) (percentile (validSamples f) 99) d = 0) ∧
    (∀ d : ℕ, percentile (validSamples f) 99 ≤ (d : ℚ) →
      toneMapValue (percentile (validSamples f) 1) (percentile (validSamples f) 99) d = 255) ∧
    toneMapDepth f = f.map (fun row => row.map
      (toneMapValue (percentile (validSamples f) 1) (percentile (validSamples f) 99))) := by
  refine ⟨fun a b hab => toneMapValue_mono _ _ hlt hab,
          fun d hd => toneMapValue_eq_zero _ _ hlt d hd,
          fun d hd => toneMapValue_eq_255 _ _ hlt d hd, ?_⟩
  rw [toneMapDepth, if_neg hne, if_pos hlt]

/-- Witness for C5 at `[[0, 100, 200]]`: valid samples `[100, 200]`,
percentiles `101 < 199`; the sample at the low percentile maps to 0, the one
at the high percentile to 255, and the two valid samples map monotonically. -/
theorem toneMapDepth_monotone_witness :
    validSamples [[0, 100, 200]] ≠ [] ∧
    percentile (validSamples [[0, 100, 200]]) 1 < percentile (validSamples [[0, 100, 200]]) 99 ∧
    toneMapValue (percentile (validSamples [[0, 100, 200]]) 1)
        (percentile (validSamples [[0, 100, 200]]) 99) 100
      ≤ toneMapValue (percentile (validSamples [[0, 100, 200]]) 1)
        (percentile (validSamples [[0, 100, 200]]) 99) 200 ∧
    toneMapValue (percentile (validSamples [[0, 100, 200]]) 1)
        (percentile (validSamples [[0, 100, 200]]) 99) 100 = 0 ∧
    toneMapValue (percentile (validSamples [[0, 100, 200]]) 1)
        (percentile (validSamples [[0, 100, 200]]) 99) 200 = 255 := by
  have hvs : validSamples [[0, 100, 200]] = [100, 200] := by decide
  have h1 : percentile (validSamples [[0, 100, 200]]) 1 = 101 := by
    rw [hvs, percentile_pair_one]
  have h99 : percentile (validSamples [[0, 100, 200]]) 99 = 199 := by
    rw [hvs, percentile_pair_ninetynine]
  have hlt : percentile (validSamples [[0, 100, 200]]) 1
      < percentile (validSamples [[0, 100, 200]]) 99 := by
    rw [h1, h99]
    norm_num
  refine ⟨by decide, hlt,
    (toneMapDepth_monotone [[0, 100, 200]] (by decide) hlt).1 100 200 (by norm_num),
    (toneMapDepth_monotone [[0, 100, 200]] (by decide) hlt).2.1 100 (by rw [h1]; norm_num),
    (toneMapDepth_monotone [[0, 100, 200]] (by decide) hlt).2.2.1 200 (by rw [h99]; norm_num)⟩

/-- C6 counterexample: in `[[0, 100, 200, 2048]]` the sample `2048` is
invalid, the percentiles of the valid samples `[100, 200]` are `101 < 199`,
yet the clamped formula sends the invalid sample `2048` to `255`, not to an
effectively-zero value. -/
theorem toneMapDepth_invalid_high_cex :
    validDepth 2048 = false ∧
    toneMapDepth [[0, 100, 200, 2048]] = [[0, 0, 255, 255]] := by
  refine ⟨by decide, ?_⟩
  have hne : validSamples [[0, 100, 200, 2048]] ≠ [] := by decide
  have hvs : validSamples [[0, 100, 200, 2048]] = [100, 200] := by decide
  have h1 : percentile (validSamples [[0, 100, 200, 2048]]) 1 = 101 := by
    rw [hvs, percentile_pair_one]
  have h99 : percentile (validSamples [[0, 100, 200, 2048]]) 99 = 199 := by
    rw [hvs, percentile_pair_ninetynine]
  have hlt : percentile (validSamples [[0, 100, 200, 2048]]) 1
      < percentile (validSamples [[0, 100, 200, 2048]]) 99 := by
    rw [h1, h99]
    norm_num
  rw [toneMapDepth, if_neg hne, if_pos hlt, h1, h99]
  simp only [List.map_cons, List.map_nil]
  rw [toneMapValue_eq_zero 101 199 (by norm_num) 0 (by norm_num),
      toneMapValue_eq_zero 101 199 (by norm_num) 100 (by norm_num),
      toneMapValue_eq_255 101 199 (by norm_num) 200 (by norm_num),
      toneMapValue_eq_255 101 199 (by norm_num) 2048 (by norm_num)]

/-- C6 as amended: every sample, valid or invalid, goes through the same
clamped linear formula; an invalid sample equal to `0` yields `0` (clamped
below the 1st percentile), while an invalid sample `≥ 2048` yields `255`
(clamped above the 99th percentile). -/
theorem toneMapDepth_invalid_clamped (f : List (List ℕ))
    (hne : validSamples f ≠ [])
    (hlt : percentile (validSamples f) 1 < percentile (validSamples f) 99) :
    toneMapDepth f = f.map (fun row => row.map
      (toneMapValue (percentile (validSamples f) 1) (percentile (validSamples f) 99))) ∧
    toneMapValue (percentile (validSamples f) 1) (percentile (validSamples f) 99) 0 = 0 ∧
    (∀ d : ℕ, 2048 ≤ d →
      toneMapValue (percentile (validSamples f) 1) (percentile (validSamples f) 99) d = 255) := by
  have hmem : ∀ x ∈ validSamples f, 1 ≤ x ∧ x ≤ 2047 := by
    intro x hx
    have hf := List.mem_filter.mp hx
    have hb := hf.2
    simp only [validDepth, Bool.and_eq_true, decide_eq_true_eq] at hb
    omega
  have hb1 := percentile_between (validSamples f) 1 1 2047 hne (by norm_num) (by norm_num)
    (fun x hx => (hmem x hx).1) (fun x hx => (hmem x hx).2)
  have hb99 := percentile_between (validSamples f) 99 1 2047 hne (by norm_num) (by norm_num)
    (fun x hx => (hmem x hx).1) (fun x hx => (hmem x hx).2)
  refine ⟨by rw [toneMapDepth, if_neg hne, if_pos hlt], ?_, ?_⟩
  · apply toneMapValue_eq_zero _ _ hlt
    have : (1 : ℚ) ≤ percentile (validSamples f) 1 := by exact_mod_cast hb1.1
    push_cast
    linarith
  · intro d hd
    apply toneMapValue_eq_255 _ _ hlt
    have h47 : percentile (validSamples f) 99 ≤ (2047 : ℚ) := by exact_mod_cast hb99.2
    have hdq : (2048 : ℚ) ≤ (d : ℚ) := by exact_mod_cast hd
    linarith

/-- Witness for the amended C6 at `[[0, 100, 200, 4000]]`: the invalid
sample `0` maps to 0 and the invalid sample `4000 ≥ 2048` maps to 255. -/
theorem toneMapDepth_invalid_clamped_witness :
    toneMapValue (percentile (validSamples [[0, 100, 200, 4000]]) 1)
      (percentile (validSamples [[0, 100, 200, 4000]]) 99) 0 = 0 ∧
    toneMapValue (percentile (validSamples [[0, 100, 200, 4000]]) 1)
      (percentile (validSamples [[0, 100, 200, 4000]]) 99) 4000 = 255 := by
  have hvs : validSamples [[0, 100, 200, 4000]] = [100, 200] := by decide
  have hlt : percentile (validSamples [[0, 100, 200, 4000]]) 1
      < percentile (validSamples [[0, 100, 200, 4000]]) 99 := by
    rw [hvs, percentile_pair_one, percentile_pair_ninetynine]
    norm_num
  exact ⟨(toneMapDepth_invalid_clamped [[0, 100, 200, 4000]] (by decide) hlt).2.1,
         (toneMapDepth_invalid_clamped [[0, 100, 200, 4000]] (by decide) hlt).2.2 4000 (by norm_num)⟩

/-- C10: the validity predicate of the tone mapper is exactly
`0 < sample < 2048`: `2047` is valid, `0` and `2048` are not, and the
percentile inputs are exactly the samples passing this predicate. -/
theorem validDepth_boundary (d : ℕ) :
    (validDepth d = true ↔ (0 < d ∧ d < 2048)) ∧
    validDepth 2047 = true ∧
    validDepth 0 = false ∧
    validDepth 2048 = false ∧
    (∀ f : List (List ℕ), validSamples f = (f.flatten).filter validDepth) := by
  refine ⟨?_, by decide, by decide, by decide, fun f => rfl⟩
  simp [validDepth]

/-! ### Helper lemmas for the frame slot -/

lemma applySlotOp_stable (s : FrameSlot) (op : SlotOp) (r : ℕ)
    (hlt : r < s.heap.next) (hcur : s.current ≠ some r) :
    (applySlotOp s op).heap.store r = s.heap.store r ∧
    r < (applySlotOp s op).heap.next ∧
    (applySlotOp s op).current ≠ some r := by
  cases op with
  | publish b =>
    refine ⟨?_, by simp [applySlotOp, publishFrame, allocHeap]; omega, ?_⟩
    · simp only [applySlotOp, publishFrame, allocHeap]
      have : ¬ r = s.heap.next := by omega
      simp [this]
    · simp only [applySlotOp, publishFrame, allocHeap]
      intro hc
      have : s.heap.next = r := by
        injection hc
      omega
  | mutateCurrent b =>
    cases hc : s.current with
    | none =>
      refine ⟨by simp [applySlotOp, mutateCurrentFrame, hc], ?_, ?_⟩
      · simpa [applySlotOp, mutateCurrentFrame, hc] using hlt
      · simp [applySlotOp, mutateCurrentFrame, hc]
    | some a =>
      have har : ¬ r = a := by
        intro h
        exact hcur (by rw [hc, h])
      refine ⟨?_, ?_, ?_⟩
      · simp [applySlotOp, mutateCurrentFrame, hc, writeHeap, har]
      · simp [applySlotOp, mutateCurrentFrame, hc, writeHeap]
        omega
      · simp only [applySlotOp, mutateCurrentFrame, hc]
        intro h
        injection h with h2
        exact har h2.symm

lemma applySlotOps_stable (ops : List SlotOp) : ∀ (s : FrameSlot) (r : ℕ),
    r < s.heap.next → s.current ≠ some r →
    (applySlotOps s ops).heap.store r = s.heap.store r := by
  induction ops with
  | nil =>
    intro s r _ _
    rfl
  | cons op rest ih =>
    intro s r hlt hcur
    have h := applySlotOp_stable s op r hlt hcur
    calc (applySlotOps s (op :: rest)).heap.store r
        = (applySlotOps (applySlotOp s op) rest).heap.store r := rfl
      _ = (applySlotOp s op).heap.store r := ih _ r h.2.1 h.2.2
      _ = s.heap.store r := h.1

/-- C2: a frame returned by `get_frame` is a copy independent of subsequent
publishes: the copy holds the bytes the current frame had at read time, and
no later sequence of publishes or in-place mutations of the current-frame
slot changes the bytes at the reader's address. -/
theorem getFrameCopy_independent (s : FrameSlot) (a : ℕ) (ops : List SlotOp)
    (hcur : s.current = some a) (hwf : a < s.heap.next) :
    (getFrameCopy s).2 = some s.heap.next ∧
    (getFrameCopy s).1.heap.store s.heap.next = s.heap.store a ∧
    (applySlotOps (getFrameCopy s).1 ops).heap.store s.heap.next = s.heap.store a := by
  have hget : getFrameCopy s = (⟨(allocHeap s.heap (s.heap.store a)).1, s.current⟩,
      some (allocHeap s.heap (s.heap.store a)).2) := by
    rw [getFrameCopy, hcur]
  have hstore : (getFrameCopy s).1.heap.store s.heap.next = s.heap.store a := by
    rw [hget]
    simp [allocHeap]
  refine ⟨by rw [hget]; rfl, hstore, ?_⟩
  rw [applySlotOps_stable ops (getFrameCopy s).1 s.heap.next ?_ ?_]
  · exact hstore
  · rw [hget]
    simp [allocHeap]
  · rw [hget, hcur]
    intro h
    have h2 : some a = some s.heap.next := h
    injection h2 with h3
    omega

/-- Witness for C2: a slot holding `[1, 2, 3]` at address 0; after the
reader copies it to address 1, a publish of `[9, 9]` and an in-place
mutation to `[7]` leave the reader's copy equal to `[1, 2, 3]`. -/
theorem getFrameCopy_independent_witness :
    (applySlotOps (getFrameCopy ⟨⟨fun x => if x = 0 then [1, 2, 3] else [], 1⟩, some 0⟩).1
        [SlotOp.publish [9, 9], SlotOp.mutateCurrent [7]]).heap.store 1 = [1, 2, 3] :=
  (getFrameCopy_independent ⟨⟨fun x => if x = 0 then [1, 2, 3] else [], 1⟩, some 0⟩ 0
    [SlotOp.publish [9, 9], SlotOp.mutateCurrent [7]] rfl (by norm_num)).2.2

/-! ### Claim theorems about the streamer -/

/-- C1: with Kinect capture and the OpenCV fallback enabled (and the native
binding importable), the probe tries freenect-Python, then freenect-system,
then OpenCV, stopping at the first success; in particular when the first two
fail and OpenCV succeeds, it selects OpenCV after attempting the two earlier
variants first, in order. -/
theorem detect_fallback_order (cfg : Config) (env : ProbeEnv)
    (hk : cfg.kinectEnabled = true) (hf : cfg.fallbackToOpencv = true)
    (ha : env.freenectAvailable = true) :
    (env.freenectPythonOk = true →
      (detectAndInitializeDevice cfg env).kinect_method = some KMethod.freenect ∧
      (detectAndInitializeDevice cfg env).attempts = [KMethod.freenect]) ∧
    (env.freenectPythonOk = false → env.freenectSystemOk = true →
      (detectAndInitializeDevice cfg env).kinect_method = some KMethod.freenectSystem ∧
      (detectAndInitializeDevice cfg env).attempts
        = [KMethod.freenect, KMethod.freenectSystem]) ∧
    (env.freenectPythonOk = false → env.freenectSystemOk = false → env.opencvOk = true →
      (detectAndInitializeDevice cfg env).kinect_method = some KMethod.opencv ∧
      (detectAndInitializeDevice cfg env).attempts
        = [KMethod.freenect, KMethod.freenectSystem, KMethod.opencv]) := by
  refine ⟨fun h1 => ?_, fun h1 h2 => ?_, fun h1 h2 h3 => ?_⟩ <;>
    simp [detectAndInitializeDevice, hk, hf, ha, h1] <;> simp_all

/-- Witness for C1 in the spec's scenario: both freenect variants fail and
OpenCV succeeds, so the probe selects OpenCV having attempted all three in
order. -/
theorem detect_fallback_order_witness :
    (detectAndInitializeDevice cfg640 probeOnlyOpencv).kinect_method = some KMethod.opencv ∧
    (detectAndInitializeDevice cfg640 probeOnlyOpencv).attempts
      = [KMethod.freenect, KMethod.freenectSystem, KMethod.opencv] :=
  (detect_fallback_order cfg640 probeOnlyOpencv rfl rfl rfl).2.2 rfl rfl rfl

/-- C7 counterexample: before any frame is published, `/stream` does not
synthesize a placeholder — it answers with HTTP error 503. -/
theorem serveStream_before_first_frame_cex :
    (initState cfg640 probeAllFail).current_frame = none ∧
    serveStreamEndpoint cfg640 (initState cfg640 probeAllFail)
      = HttpResponse.httpError 503 ("Stream not available") :=
  ⟨rfl, rfl⟩

/-- C7 as amended: before any frame of the requested kind is published,
`/depth` synthesizes a placeholder of the configured resolution, `/stream`
answers with HTTP error 503 rather than a placeholder, and `/frame` reports
absence as boolean fields. -/
theorem serve_before_first_publish (cfg : Config) (s : StreamerState)
    (hf : s.current_frame = none) (hd : s.current_depth = none) :
    serveDepthEndpoint cfg s
      = HttpResponse.jpegImage (ImagePayload.placeholderDepth cfg.height cfg.width) ∧
    serveStreamEndpoint cfg s = HttpResponse.httpError 503 ("Stream not available") ∧
    serveFrameEndpoint s = ⟨false, false⟩ := by
  refine ⟨?_, ?_, ?_⟩
  · simp [serveDepthEndpoint, hd]
  · simp [serveStreamEndpoint, hf]
  · simp [serveFrameEndpoint, hf, hd]

/-- Witness for the amended C7 at the degraded start state. -/
theorem serve_before_first_publish_witness :
    serveDepthEndpoint cfg640 (initState cfg640 probeAllFail)
      = HttpResponse.jpegImage (ImagePayload.placeholderDepth 480 640) ∧
    serveFrameEndpoint (initState cfg640 probeAllFail) = ⟨false, false⟩ :=
  ⟨(serve_before_first_publish cfg640 (initState cfg640 probeAllFail) rfl rfl).1,
   (serve_before_first_publish cfg640 (initState cfg640 probeAllFail) rfl rfl).2.2⟩

/-! ### Degraded-mode liveness (C8) -/

lemma detect_none_fields (cfg : Config) (env : ProbeEnv)
    (h : (detectAndInitializeDevice cfg env).kinect_method = none) :
    (detectAndInitializeDevice cfg env).kinect_available = false ∧
    (detectAndInitializeDevice cfg env).error_message
      = some ("No camera device detected") := by
  by_cases h1 : (env.freenectAvailable && cfg.kinectEnabled && env.freenectPythonOk) = true
  · exfalso
    unfold detectAndInitializeDevice at h
    simp [h1] at h
  by_cases h2 : (cfg.kinectEnabled && env.freenectSystemOk) = true
  · exfalso
    unfold detectAndInitializeDevice at h
    simp [h1, h2] at h
  by_cases h3 : (cfg.fallbackToOpencv && env.opencvOk) = true
  · exfalso
    unfold detectAndInitializeDevice at h
    simp [h1, h2, h3] at h
  · unfold detectAndInitializeDevice
    simp [h1, h2, h3]

lemma addFrameToQueue_fields (s : StreamerState) (f : CFrame) :
    (addFrameToQueue s f).kinect_method = s.kinect_method ∧
    (addFrameToQueue s f).kinect_available = s.kinect_available ∧
    (addFrameToQueue s f).error_message = s.error_message ∧
    (addFrameToQueue s f).running = s.running ∧
    (addFrameToQueue s f).frame_count = s.frame_count + 1 ∧
    (addFrameToQueue s f).current_frame = some f := by
  unfold addFrameToQueue
  split <;> simp

lemma captureCycle_degraded (cfg : Config) (env : CaptureEnv) (s : StreamerState)
    (h : s.kinect_method = none) :
    captureCycle cfg env s = addFrameToQueue s (createStatusFrame cfg s) := by
  simp [captureCycle, h]

lemma degraded_iterate (cfg : Config) (env : CaptureEnv) (n : ℕ) (s : StreamerState)
    (h : s.kinect_method = none) :
    ((captureCycle cfg env)^[n] s).kinect_method = none ∧
    ((captureCycle cfg env)^[n] s).kinect_available = s.kinect_available ∧
    ((captureCycle cfg env)^[n] s).error_message = s.error_message ∧
    ((captureCycle cfg env)^[n] s).frame_count = s.frame_count + n := by
  induction n with
  | zero =>
    simp [h]
  | succ n ih =>
    rw [Function.iterate_succ_apply', captureCycle_degraded cfg env _ ih.1]
    have haf := addFrameToQueue_fields ((captureCycle cfg env)^[n] s)
      (createStatusFrame cfg ((captureCycle cfg env)^[n] s))
    refine ⟨?_, ?_, ?_, ?_⟩
    · rw [haf.1, ih.1]
    · rw [haf.2.1, ih.2.1]
    · rw [haf.2.2.1, ih.2.2.1]
    · rw [haf.2.2.2.2.1, ih.2.2.2]
      omega

/-- C8: starting from a failed probe (degraded mode), every capture cycle
publishes a freshly synthesized status frame and increments `frame_count` by
exactly one; consecutive cycles publish different status frames; and
`/status` reports `kinect_available = false` with a non-null error message. -/
theorem degraded_liveness (cfg : Config) (penv : ProbeEnv) (cenv : CaptureEnv) (n : ℕ)
    (h : (detectAndInitializeDevice cfg penv).kinect_method = none) :
    ((captureCycle cfg cenv)^[n + 1] (initState cfg penv)).frame_count
      = ((captureCycle cfg cenv)^[n] (initState cfg penv)).frame_count + 1 ∧
    ((captureCycle cfg cenv)^[n + 1] (initState cfg penv)).current_frame
      = some (createStatusFrame cfg ((captureCycle cfg cenv)^[n] (initState cfg penv))) ∧
    ((captureCycle cfg cenv)^[n + 2] (initState cfg penv)).current_frame
      ≠ ((captureCycle cfg cenv)^[n + 1] (initState cfg penv)).current_frame ∧
    (serveStatusEndpoint ((captureCycle cfg cenv)^[n] (initState cfg penv))).kinect_available
      = false ∧
    (serveStatusEndpoint ((captureCycle cfg cenv)^[n] (initState cfg penv))).error_message
      ≠ none := by
  have hm0 : (initState cfg penv).kinect_method = none := h
  have hit := degraded_iterate cfg cenv n (initState cfg penv) hm0
  have hit1 := degraded_iterate cfg cenv (n + 1) (initState cfg penv) hm0
  have hdf := detect_none_fields cfg penv h
  have hstep1 : ((captureCycle cfg cenv)^[n + 1] (initState cfg penv))
      = addFrameToQueue ((captureCycle cfg cenv)^[n] (initState cfg penv))
          (createStatusFrame cfg ((captureCycle cfg cenv)^[n] (initState cfg penv))) := by
    rw [Function.iterate_succ_apply', captureCycle_degraded cfg cenv _ hit.1]
  have hstep2 : ((captureCycle cfg cenv)^[n + 2] (initState cfg penv))
      = addFrameToQueue ((captureCycle cfg cenv)^[n + 1] (initState cfg penv))
          (createStatusFrame cfg ((captureCycle cfg cenv)^[n + 1] (initState cfg penv))) := by
    have : n + 2 = (n + 1) + 1 := rfl
    rw [this, Function.iterate_succ_apply', captureCycle_degraded cfg cenv _ hit1.1]
  refine ⟨?_, ?_, ?_, ?_, ?_⟩
  · rw [hstep1]
    exact (addFrameToQueue_fields _ _).2.2.2.2.1
  · rw [hstep1]
    exact (addFrameToQueue_fields _ _).2.2.2.2.2
  · rw [hstep2, hstep1, (addFrameToQueue_fields _ _).2.2.2.2.2,
        (addFrameToQueue_fields _ _).2.2.2.2.2]
    intro heq
    injection heq with heq2
    unfold createStatusFrame at heq2
    injection heq2 with e1 e2 e3 e4 e5 e6
    rw [(addFrameToQueue_fields _ _).2.2.2.2.1] at e3
    omega
  · show ((captureCycle cfg cenv)^[n] (initState cfg penv)).kinect_available = false
    rw [hit.2.1]
    exact hdf.1
  · show ((captureCycle cfg cenv)^[n] (initState cfg penv)).error_message ≠ none
    rw [hit.2.2.1]
    have : (initState cfg penv).error_message = some ("No camera device detected") := hdf.2
    rw [this]
    simp

/-- Witness for C8 at the concrete degraded start, first cycle. -/
theorem degraded_liveness_witness :
    ((captureCycle cfg640 cenvNone)^[1] (initState cfg640 probeAllFail)).frame_count
      = ((captureCycle cfg640 cenvNone)^[0] (initState cfg640 probeAllFail)).frame_count + 1 ∧
    (serveStatusEndpoint ((captureCycle cfg640 cenvNone)^[0]
        (initState cfg640 probeAllFail))).kinect_available = false ∧
    (serveStatusEndpoint ((captureCycle cfg640 cenvNone)^[0]
        (initState cfg640 probeAllFail))).error_message ≠ none :=
  ⟨(degraded_liveness cfg640 probeAllFail cenvNone 0 rfl).1,
   (degraded_liveness cfg640 probeAllFail cenvNone 0 rfl).2.2.2.1,
   (degraded_liveness cfg640 probeAllFail cenvNone 0 rfl).2.2.2.2⟩

/-! ### Claim theorems about the generic-camera probe -/

lemma tryOpencvAux_eq (env : CameraEnv) (cfg : Config) : ∀ l : List ℕ,
    tryOpencvAux env cfg l
      = (l.find? (fun i => env.opens i && env.readOk i), opencvTrace env cfg l) := by
  intro l
  induction l with
  | nil => rfl
  | cons i rest ih =>
    by_cases hp : (env.opens i && env.readOk i) = true
    · have hf : List.find? (fun j => env.opens j && env.readOk j) (i :: rest) = some i :=
        List.find?_cons_of_pos _ hp
      have ht : List.takeWhile (fun j => !(env.opens j && env.readOk j)) (i :: rest) = [] := by
        have hnb : ¬ ((!(env.opens i && env.readOk i)) = true) := by simp [hp]
        rw [List.takeWhile_cons, if_neg hnb]
      simp only [tryOpencvAux, hp, if_true]
      rw [opencvTrace, hf, ht]
      rfl
    · have hp2 : (env.opens i && env.readOk i) = false := by
        simp only [Bool.not_eq_true] at hp
        exact hp
      have hf : List.find? (fun j => env.opens j && env.readOk j) (i :: rest)
          = List.find? (fun j => env.opens j && env.readOk j) rest :=
        List.find?_cons_of_neg _ (by simp [hp2])
      have ht : List.takeWhile (fun j => !(env.opens j && env.readOk j)) (i :: rest)
          = i :: List.takeWhile (fun j => !(env.opens j && env.readOk j)) rest := by
        have hb : (!(env.opens i && env.readOk i)) = true := by simp [hp2]
        rw [List.takeWhile_cons, if_pos hb]
      simp only [tryOpencvAux, hp2, Bool.false_eq_true, if_false, ih]
      rw [opencvTrace, opencvTrace, hf, ht]
      simp [List.append_assoc]

/-- C9 counterexample: the loop iterates six indices — the configured
default plus five alternates `1..5`, not four — and an environment in which
only index 5 works makes `_try_opencv` select index 5, an index outside the
default-plus-four-alternates set. -/
theorem tryOpencv_fifth_alternate_cex :
    candidateIndices cfg640.cameraIndex = [0, 1, 2, 3, 4, 5] ∧
    (candidateIndices cfg640.cameraIndex).length = 6 ∧
    (tryOpencv envOnlyIndex5 cfg640).1 = some 5 := by
  refine ⟨rfl, rfl, ?_⟩
  rw [tryOpencv, tryOpencvAux_eq]
  decide

/-- C9 as amended: `_try_opencv` iterates exactly the configured default
index plus the five alternates `1..5`, in order; it selects the first index
that both opens and yields one decodable frame; an index that opens without
yielding a frame is released and skipped (as is one that fails to open); and
width/height/fps are configured only on the selected device, after
selection, as the final action. -/
theorem tryOpencv_selection (env : CameraEnv) (cfg : Config) :
    candidateIndices cfg.cameraIndex = [cfg.cameraIndex, 1, 2, 3, 4, 5] ∧
    (tryOpencv env cfg).1
      = (candidateIndices cfg.cameraIndex).find? (fun i => env.opens i && env.readOk i) ∧
    (tryOpencv env cfg).2 = opencvTrace env cfg (candidateIndices cfg.cameraIndex) ∧
    (∀ i w h fp, CamEvent.setProps i w h fp ∈ (tryOpencv env cfg).2 →
      (tryOpencv env cfg).1 = some i ∧ w = cfg.width ∧ h = cfg.height ∧ fp = cfg.fps) := by
  have he := tryOpencvAux_eq env cfg (candidateIndices cfg.cameraIndex)
  refine ⟨rfl, by rw [tryOpencv, he], by rw [tryOpencv, he], ?_⟩
  intro i w h fp hmem
  rw [tryOpencv, he] at hmem ⊢
  simp only [opencvTrace, List.mem_append, List.mem_flatten, List.mem_map] at hmem
  rcases hmem with ⟨sub, ⟨j, _, rfl⟩, hin⟩ | hfind
  · simp at hin
  · cases hfo : (candidateIndices cfg.cameraIndex).find?
        (fun i => env.opens i && env.readOk i) with
    | none =>
      rw [hfo] at hfind
      simp at hfind
    | some i0 =>
      rw [hfo] at hfind
      simp only [List.mem_cons, List.mem_singleton] at hfind
      rcases hfind with h1 | h2
      · exact absurd h1 (by simp)
      · rcases h2 with h2 | h3
        · injection h2 with e1 e2 e3 e4
          refine ⟨?_, e2, e3, e4⟩
          show some i0 = some i
          congr 1
          omega
        · simp at h3
